import Mathlib

/-!
Verification of the closed-loop latency load generator (fyp-onboarding).

This file is a shallow embedding of the measurement and scheduling core of
the repository, taken from:
  - loadgen-dataplane/load_generator.go (worker-pool data-plane tester:
    RunDataPlaneTest, calculateStatistics, percentile, RunFullExperiment,
    runTestAndGetResults), and
  - loadgen/load_generator.go (rate-controlled experiment driver:
    RunExperiment with its overload circuit breaker and 20-second rolling
    batch snapshots).

Modelling conventions:
  - Go float64 latency values (microseconds) are embedded as exact rationals
    (ℚ).  The Go code only adds, subtracts, multiplies and divides by
    run-level constants; every claim proved here concerns the algebraic
    structure of those computations, which rational arithmetic renders
    exactly.
  - Go int64 nanosecond timestamps are embedded as ℤ.  Go integer division
    truncates toward zero, which is Int.tdiv.
  - Fallible steps (gRPC errors, out-of-range indexing, log.Fatalf exits)
    are made explicit with Option and with exit-code fields.
  - Concurrency is embedded as small-step transition systems over explicit
    state records, with one constructor per atomic action of the Go code.
-/

/-- One successful request record, from loadgen-dataplane/load_generator.go
(struct requestResult): sequence number plus the three derived latency values
in microseconds. -/
structure requestResult where
  sequenceNum : ℕ
  rttUs : ℚ
  dataPlaneLatencyUs : ℚ
  workerProcessingUs : ℚ
deriving DecidableEq, Repr

/-- Ascending sort of a latency series, modelling the call to sort.Float64s
in calculateStatistics.  Any correct ascending sort models it; we use
insertion sort so that the definition reduces on concrete inputs. -/
def sortFloat64s (l : List ℚ) : List ℚ :=
  l.insertionSort (· ≤ ·)

/-- Shallow embedding of percentile from loadgen-dataplane/load_generator.go:
index := int(float64(len(sorted)) * p / 100.0), clamped from above to
len-1; returns 0 on an empty series.  The Go parameter p is a float64, but
every call site passes the whole numbers 50, 95 and 99, so p is embedded as
ℕ: for whole p and len below 2^52 the float64 product and quotient round to
nothing coarser than exact halves, int() truncation is the floor, and the
computed index is exactly len * p / 100 in ℕ floor division. -/
def percentile (sorted : List ℚ) (p : ℕ) : ℚ :=
  if sorted.length = 0 then 0
  else
    let index := sorted.length * p / 100
    let index := if sorted.length ≤ index then sorted.length - 1 else index
    sorted.getD index 0

/-- Summary statistics, from loadgen-dataplane/load_generator.go (struct
Stats).  The Go StdDev field stores math.Sqrt(sumSqDiff / n); since the
square root of a rational is not rational we keep the radicand
sumSqDiff / n in the field StdDevSq, and state square-root facts about it
over ℝ in the theorems. -/
structure Stats where
  Mean : ℚ
  P50 : ℚ
  P95 : ℚ
  P99 : ℚ
  Min : ℚ
  Max : ℚ
  StdDevSq : ℚ
  RTTMean : ℚ
  RTTP95 : ℚ
  RTTP99 : ℚ
deriving DecidableEq, Repr

/-- Shallow embedding of calculateStatistics from
loadgen-dataplane/load_generator.go.  The Go function unconditionally
indexes dataPlane[0] and dataPlane[n-1] for Min and Max, which panics on an
empty slice; the empty case is therefore embedded as none.  The folds mirror
the Go accumulation loops; the sorts mirror sort.Float64s. -/
def calculateStatistics (results : List requestResult) : Option Stats :=
  let n := results.length
  let dataPlane := results.map (·.dataPlaneLatencyUs)
  let rttValues := results.map (·.rttUs)
  let sum := dataPlane.foldl (· + ·) 0
  let rttSum := rttValues.foldl (· + ·) 0
  let mean := sum / (n : ℚ)
  let rttMean := rttSum / (n : ℚ)
  let sumSqDiff := dataPlane.foldl (fun acc v => acc + (v - mean) * (v - mean)) 0
  let dataPlaneSorted := sortFloat64s dataPlane
  let rttSorted := sortFloat64s rttValues
  if n = 0 then
    none
  else
    some
      { Mean := mean
        P50 := percentile dataPlaneSorted 50
        P95 := percentile dataPlaneSorted 95
        P99 := percentile dataPlaneSorted 99
        Min := dataPlaneSorted.getD 0 0
        Max := dataPlaneSorted.getD (n - 1) 0
        StdDevSq := sumSqDiff / (n : ℚ)
        RTTMean := rttMean
        RTTP95 := percentile rttSorted 95
        RTTP99 := percentile rttSorted 99 }

/-- The synthetic latency series 10, 20, ..., 1000 microseconds (100
values) from the spec's percentile fixture. -/
def latencyFixture : List ℚ :=
  (List.range 100).map (fun i => ((10 * (i + 1) : ℕ) : ℚ))

/-- The fixture series packaged as successful request results whose one-way
latency estimates are exactly the fixture values. -/
def dpFixtureResults : List requestResult :=
  (List.range 100).map (fun i => ⟨i, 0, ((10 * (i + 1) : ℕ) : ℚ), 0⟩)

/-- One batch record from loadgen/load_generator.go (struct batchResult):
int64 nanosecond timestamps and derived latencies, embedded as ℤ. -/
structure batchResult where
  workerE2E : ℤ
  clientE2E : ℤ
  avgCpuFreqKhz : ℤ
  iterations : ℤ
  clientSendNs : ℤ
  clientRecvNs : ℤ
  networkLatencyNs : ℤ
  workerProcessingNs : ℤ
  dataPlaneLatencyNs : ℤ
deriving DecidableEq, Repr

/-- The latency decomposition performed by the worker goroutine of
RunExperiment in loadgen/load_generator.go on a successful response:
clientRoundTripNs := recvNs - sendNs, networkLatencyNs := clientRoundTripNs -
workerProcessingNs, dataPlaneLatencyNs := networkLatencyNs / 2, all in int64
nanoseconds; Go int64 division truncates toward zero, which is Int.tdiv. -/
def mkBatchResult (workerE2E clientE2E avgCpuFreqKhz iterations sendNs recvNs
    workerProcessingNs : ℤ) : batchResult :=
  let clientRoundTripNs := recvNs - sendNs
  let networkLatencyNs := clientRoundTripNs - workerProcessingNs
  let dataPlaneLatencyNs := networkLatencyNs.tdiv 2
  { workerE2E := workerE2E
    clientE2E := clientE2E
    avgCpuFreqKhz := avgCpuFreqKhz
    iterations := iterations
    clientSendNs := sendNs
    clientRecvNs := recvNs
    networkLatencyNs := networkLatencyNs
    workerProcessingNs := workerProcessingNs
    dataPlaneLatencyNs := dataPlaneLatencyNs }

/-- The per-request environment seen by one worker-pool iteration of
RunDataPlaneTest in loadgen-dataplane/load_generator.go: the two client
timestamps around the gRPC call, and the worker-reported processing time,
with none standing for a failed call (err != nil). -/
structure RequestEnv where
  sendNs : ℤ
  recvNs : ℤ
  workerProcessingNs : Option ℤ

/-- The body of one worker-pool iteration of RunDataPlaneTest: on error the
request is skipped (continue) and no outcome is recorded; on success the
float64 microsecond latencies are derived (embedded as exact ℚ) and a
requestResult carrying the scheduled sequence number is appended. -/
def processRequest (seq : ℕ) (env : RequestEnv) : Option requestResult :=
  match env.workerProcessingNs with
  | none => none
  | some w =>
    let rttUs : ℚ := ((env.recvNs - env.sendNs : ℤ) : ℚ) / 1000
    let workerProcessingUs : ℚ := (w : ℚ) / 1000
    let networkLatencyUs := rttUs - workerProcessingUs
    let dataPlaneLatencyUs := networkLatencyUs / 2
    some ⟨seq, rttUs, dataPlaneLatencyUs, workerProcessingUs⟩

/-- The scheduling-plus-collection skeleton of RunDataPlaneTest: sequence
numbers 0..NumRequests-1 are assigned monotonically at schedule time, each is
delivered to the worker pool exactly once, and the results slice accumulates
exactly the successful outcomes (ordering of the concurrent appends does not
affect any set-level statement proved about it). -/
def runRequests (numRequests : ℕ) (env : ℕ → RequestEnv) : List requestResult :=
  (List.range numRequests).filterMap (fun i => processRequest i (env i))

/-- The series of one-way latency estimates of a run's successful outcomes,
as read off by calculateStatistics. -/
def dataPlaneSeries (rs : List requestResult) : List ℚ :=
  rs.map (·.dataPlaneLatencyUs)

/-- Modelled from the spec (for comparison with the code's computation): the
population variance of a series — the sum of squared deviations from the
mean divided by N, not by N-1.  The spec's "jitter" is its square root. -/
def popVarianceSpec (l : List ℚ) : ℚ :=
  (l.map (fun v => (v - l.sum / l.length) ^ 2)).sum / l.length

/-- The 20-second batch jitter computation of RunExperiment in
loadgen/load_generator.go, radicand only: meanDataPlane :=
float64(sumDataPlane)/n over the int64 batch values, sumSqDiff the sum of
squared deviations, and the logged jitter is
math.Sqrt(sumSqDiff/n)/1000 µs when the batch has more than one element and
0.0 otherwise.  This definition keeps the radicand sumSqDiff/n (in ns²). -/
def batchJitterSqNs (vals : List ℤ) : ℚ :=
  let n : ℚ := vals.length
  let meanDataPlane : ℚ := ((vals.foldl (· + ·) 0 : ℤ) : ℚ) / n
  let sumSqDiff : ℚ :=
    vals.foldl
      (fun (acc : ℚ) (v : ℤ) =>
        acc + ((v : ℚ) - meanDataPlane) * ((v : ℚ) - meanDataPlane)) 0
  if 1 < vals.length then sumSqDiff / n else 0

/-- Driver-level shared state of RunExperiment in loadgen/load_generator.go:
the atomic counters reqCount (requests issued at schedule time) and
timeoutCount, the atomic stopEarly flag, and whether expCancel() has been
invoked (cancelling the context of every in-flight and future request of the
current run). -/
structure DriverState where
  issued : ℕ
  timeouts : ℕ
  stopEarly : Bool
  cancelled : Bool
deriving DecidableEq, Repr

/-- The atomic actions interleaved during a run of RunExperiment: a scheduler
loop iteration (tick), and the completion of one request as a
deadline-exceeded error, another error, or a success. -/
inductive DriverEvent where
  | tick
  | completeTimeout
  | completeOtherErr
  | completeOk
deriving DecidableEq, Repr

/-- Small-step semantics of the circuit-breaker logic in RunExperiment
(loadgen/load_generator.go).  A tick runs the loop body only while stopEarly
is unset and increments reqCount.  A completion with err != nil increments
timeoutCount exactly when the error is DeadlineExceeded, then evaluates
total > 50 && float64(timeouts)/float64(total) > 0.10 on the freshly loaded
counters; for the int64 magnitudes involved the float64 comparison agrees
with exact rational arithmetic, i.e. with 10 * timeouts > total.  When the
condition holds the worker stores stopEarly = 1 and calls expCancel(). -/
def drStep (s : DriverState) : DriverEvent → DriverState
  | .tick =>
    if s.stopEarly then s else { s with issued := s.issued + 1 }
  | .completeTimeout =>
    let t := s.timeouts + 1
    if 50 < s.issued ∧ s.issued < 10 * t then
      { s with timeouts := t, stopEarly := true, cancelled := true }
    else
      { s with timeouts := t }
  | .completeOtherErr =>
    if 50 < s.issued ∧ s.issued < 10 * s.timeouts then
      { s with stopEarly := true, cancelled := true }
    else
      s
  | .completeOk => s

/-- A whole run is a fold of interleaved atomic actions from the initial
state (no requests issued, no timeouts, breaker untripped). -/
def runDriver (events : List DriverEvent) : DriverState :=
  events.foldl drStep ⟨0, 0, false, false⟩

/-- The run-dependent content of the final summary line of RunExperiment
("Finished experiment: ... TotalReq=%d, Timeouts=%d (%.2f%%) ...").  The
printed timeout rate is derived from these two counters; the other printed
fields echo the run configuration or the wall-clock duration.  No field
records whether the breaker tripped. -/
structure FinalSummary where
  totalReq : ℕ
  timeouts : ℕ
deriving DecidableEq, Repr

/-- The final summary of a run as a function of its end state. -/
def summaryOf (s : DriverState) : FinalSummary :=
  ⟨s.issued, s.timeouts⟩

/-- A run that issues 51 requests and then observes 6 timeout completions:
the 6th completion sees total = 51 > 50 and ratio 6/51 > 10%, tripping the
breaker. -/
def overloadTrace : List DriverEvent :=
  List.replicate 51 .tick ++ List.replicate 6 .completeTimeout

/-- A run with the same final counters in which all 6 timeouts complete
while only 50 requests have been issued (ratio checks see total = 50, never
more than 50), after which one more request is issued and succeeds: the
breaker never trips. -/
def cleanTrace : List DriverEvent :=
  List.replicate 50 .tick ++ List.replicate 6 .completeTimeout ++ [.tick, .completeOk]

/-- The observable outcome of one invocation of the loadgen-dataplane
single-test path: process exit code, which output files were created, whether
the CSV header line was written, the reported success count and success-rate
percentage, the number of CSV body rows written, whether the "No results to
analyze" diagnostic block was emitted, and the statistics block (present only
when at least one request succeeded). -/
structure RunReport where
  exitCode : ℕ
  logCreated : Bool
  csvCreated : Bool
  csvHeaderWritten : Bool
  successCount : ℕ
  successRatePct : ℚ
  csvBodyRows : ℕ
  noResultsDiagnostic : Bool
  statsBlock : Option Stats
deriving Repr

/-- Effect-level embedding of RunDataPlaneTest (loadgen-dataplane,
worker-pool version) around a completed request phase.  log.Fatalf on a
failed log or CSV creation exits the process with code 1.  Otherwise the CSV
header is written before any request, the completion banner always reports
successes and the success rate, and when zero requests succeeded the
function logs the diagnostic block and returns normally — no CSV body rows,
no stats, exit code 0.  Otherwise the rows are written and
calculateStatistics runs; its none (the empty-slice panic) would poison the
whole invocation, modelled by propagating none. -/
def runDataPlaneTest (logOk csvOk : Bool) (numRequests : ℕ)
    (results : List requestResult) : Option RunReport :=
  if logOk = false then
    some ⟨1, false, false, false, 0, 0, 0, false, none⟩
  else if csvOk = false then
    some ⟨1, true, false, false, 0, 0, 0, false, none⟩
  else
    let successRate := (results.length : ℚ) / (numRequests : ℚ) * 100
    if results.length = 0 then
      some ⟨0, true, true, true, 0, successRate, 0, true, none⟩
    else
      match calculateStatistics results with
      | none => none
      | some st =>
        some ⟨0, true, true, true, results.length, successRate, results.length, false, some st⟩

/-- main of loadgen-dataplane in single-test mode: a failed grpc.Dial is
log.Fatalf (exit code 1) before any request is sent; otherwise
RunDataPlaneTest runs and main returns normally (exit code 0). -/
def mainSingleTest (connectOk logOk csvOk : Bool) (numRequests : ℕ)
    (results : List requestResult) : Option RunReport :=
  if connectOk = false then
    some ⟨1, false, false, false, 0, 0, 0, false, none⟩
  else
    runDataPlaneTest logOk csvOk numRequests results

/-- The guarded statistics logging at the end of runTestAndGetResults
(loadgen-dataplane): calculateStatistics is invoked only when
len(results) > 0; an outer none would be the empty-slice panic. -/
def runTestStatsLog (results : List requestResult) : Option (Option Stats) :=
  if 0 < results.length then
    match calculateStatistics results with
    | none => none
    | some st => some (some st)
  else
    some none

/-- One atomic action on the shared batch accumulator of RunExperiment
(loadgen/load_generator.go): a worker appends one successful outcome under
batchMutex, or the 20-second batchTicker fires. -/
inductive BatchEvent where
  | add (r : batchResult)
  | tick
deriving DecidableEq, Repr

/-- The state of the rolling-statistics engine: the current in-memory batch,
and the sequence of batches already drained to the log (each snapshot line
is computed over exactly one drained batch). -/
structure BatchState where
  batch : List batchResult
  logged : List (List batchResult)
deriving DecidableEq, Repr

/-- Small-step semantics of the snapshot goroutine of RunExperiment: an
append grows the current batch; a ticker fire with a non-empty batch
computes the statistics over just that batch, logs the snapshot line, and
resets batchResults to an empty slice; a fire on an empty batch logs
nothing. -/
def batchStep (s : BatchState) : BatchEvent → BatchState
  | .add r => ⟨s.batch ++ [r], s.logged⟩
  | .tick =>
    if s.batch.isEmpty then s else ⟨[], s.logged ++ [s.batch]⟩

/-- A run's batch activity is a fold of appends and ticker fires from the
empty accumulator.  At wg.Wait() the snapshot goroutine is stopped and the
"Final Batch Avg" block is computed over whatever .batch holds. -/
def runBatches (events : List BatchEvent) : BatchState :=
  events.foldl batchStep ⟨[], []⟩

/-- All outcomes appended during the run, in order: the complete outcome
set of the run. -/
def addsOf (events : List BatchEvent) : List batchResult :=
  events.filterMap (fun e =>
    match e with
    | .add r => some r
    | .tick => none)

/-- WorkerPoolSize = 100, the fixed number of worker goroutines started by
RunDataPlaneTest and runTestAndGetResults (loadgen-dataplane). -/
def WorkerPoolSize : ℕ := 100

/-- Abstract state of the request hand-off machinery of RunDataPlaneTest:
queued is the number of sequence numbers sitting in requestChan (a buffered
channel of capacity WorkerPoolSize*2), busy the number of worker goroutines
currently inside a DoWork RPC.  Only the WorkerPoolSize pool workers issue
RPCs, so busy equals the number of in-flight RPCs. -/
structure PoolState where
  queued : ℕ
  busy : ℕ
deriving DecidableEq, Repr

/-- The atomic transitions of the hand-off machinery: the scheduler's
requestChan <- i completes only while the buffer has room (it blocks
otherwise); an idle worker (there are exactly WorkerPoolSize of them, so at
most WorkerPoolSize can be busy) dequeues a sequence number and enters the
RPC; a worker completes its RPC. -/
inductive PoolStep : PoolState → PoolState → Prop
  | send (s : PoolState) :
      s.queued < 2 * WorkerPoolSize → PoolStep s ⟨s.queued + 1, s.busy⟩
  | take (s : PoolState) :
      0 < s.queued → s.busy < WorkerPoolSize → PoolStep s ⟨s.queued - 1, s.busy + 1⟩
  | finish (s : PoolState) :
      0 < s.busy → PoolStep s ⟨s.queued, s.busy - 1⟩

/-- States reachable from the start of a run (empty channel, idle pool). -/
def PoolReachable (s : PoolState) : Prop :=
  Relation.ReflTransGen PoolStep ⟨0, 0⟩ s

/-- The scheduler's hand-off blocks exactly when the channel send cannot
proceed. -/
def sendBlocked (s : PoolState) : Prop :=
  ¬ s.queued < 2 * WorkerPoolSize

/-- The outcome of one scale step of RunFullExperiment
(loadgen-dataplane/load_generator.go): either createDummyServices returned an
error, or the load test ran and produced a (possibly empty) results slice. -/
inductive StepInput where
  | provisionFail
  | ran (results : List requestResult)
deriving DecidableEq

/-- One row of the cumulative experiment_summary CSV: either the sentinel
row "scale,mode,...,0.00,N/A,N/A,..." written when a run produced no
results, or a data row with the success rate and statistics. -/
inductive SummaryRow where
  | naRow (scale : ℕ)
  | dataRow (scale : ℕ) (successRate : ℚ) (stats : Option Stats)
deriving DecidableEq

/-- The row written for one scale step of the RunFullExperiment loop:
a provisioning failure prints an error and continues WITHOUT writing a row;
a run with no results writes the "N/A" sentinel row and continues; a run
with results writes the data row computed from calculateStatistics. -/
def rowFor (numRequests scale : ℕ) : StepInput → Option SummaryRow
  | .provisionFail => none
  | .ran results =>
    if results.length = 0 then
      some (.naRow scale)
    else
      some (.dataRow scale ((results.length : ℚ) / (numRequests : ℚ) * 100)
        (calculateStatistics results))

/-- The experiment loop of RunFullExperiment over an ordered list of scale
steps: each step contributes its row (if any) and the loop always continues
to the next scale. -/
def runSweep (numRequests : ℕ) : List (ℕ × StepInput) → List SummaryRow
  | [] => []
  | (scale, inp) :: rest =>
    match rowFor numRequests scale inp with
    | none => runSweep numRequests rest
    | some row => row :: runSweep numRequests rest

/-- RunFullExperiment: the sweep loop followed by the final cleanup
(deleteDummyServices), which sits after the loop on the normal exit path and
therefore runs regardless of per-step failures; the Boolean records that the
teardown was invoked. -/
def runFullExperiment (numRequests : ℕ) (steps : List (ℕ × StepInput)) :
    List SummaryRow × Bool :=
  (runSweep numRequests steps, true)

/-- The scale a summary row is tagged with. -/
def rowScale : SummaryRow → ℕ
  | .naRow scale => scale
  | .dataRow scale _ _ => scale

theorem sortFloat64s_length (l : List ℚ) : (sortFloat64s l).length = l.length :=
  (List.perm_insertionSort (· ≤ ·) l).length_eq

/-- Claim C1: the percentile computation sorts the series ascending and
returns the element at index floor(len * q / 100), clamped to
[0, len-1] (nearest-rank, truncating; no interpolation); on the 100-value
fixture series 10, 20, ..., 1000 µs it yields P50 = 510, P95 = 960 and
P99 = 1000. -/
theorem percentile_nearest_rank :
    (∀ (series : List ℚ) (p : ℕ), series ≠ [] →
        ((sortFloat64s series).Sorted (· ≤ ·) ∧
          percentile (sortFloat64s series) p =
            (sortFloat64s series).getD (min (series.length * p / 100) (series.length - 1)) 0))
    ∧ percentile (sortFloat64s latencyFixture) 50 = 510
    ∧ percentile (sortFloat64s latencyFixture) 95 = 960
    ∧ percentile (sortFloat64s latencyFixture) 99 = 1000
    ∧ (calculateStatistics dpFixtureResults).map Stats.P50 = some 510
    ∧ (calculateStatistics dpFixtureResults).map Stats.P95 = some 960
    ∧ (calculateStatistics dpFixtureResults).map Stats.P99 = some 1000 := by
  refine ⟨?_, by decide, by decide, by decide, by decide, by decide, by decide⟩
  intro series p hne
  constructor
  · exact List.sorted_insertionSort _ _
  · have hlen : (sortFloat64s series).length = series.length := sortFloat64s_length series
    have hpos : 0 < series.length := List.length_pos.mpr hne
    unfold percentile
    rw [hlen]
    have hne' : ¬ series.length = 0 := Nat.pos_iff_ne_zero.mp hpos
    simp only [hne', if_false]
    rcases le_or_lt series.length (series.length * p / 100) with h | h
    · simp only [if_pos h]
      congr 1
      omega
    · simp only [if_neg (not_le.mpr h)]
      congr 1
      omega

/-- Witness for C1: the general nearest-rank formula applied to the concrete
series [30, 10, 20] at q = 50. -/
theorem percentile_nearest_rank_witness :
    (percentile (sortFloat64s [30, 10, 20]) 50 =
        (sortFloat64s [30, 10, 20]).getD
          (min (([30, 10, 20] : List ℚ).length * 50 / 100)
            (([30, 10, 20] : List ℚ).length - 1)) 0)
    ∧ percentile (sortFloat64s [30, 10, 20]) 50 = 20 :=
  ⟨(percentile_nearest_rank.1 [30, 10, 20] 50 (by decide)).2, by decide⟩

/-- Claim C2 counterexample: in loadgen-dataplane the one-way estimate is
computed in float64 microseconds by exact halving, not by truncating integer
nanosecond division.  With send 0, recv 1001 ns and zero worker time the
stored estimate is 1001/2000 µs, while truncating ns division would give
tdiv 1001 2 = 500 ns = 500/1000 µs. -/
theorem decomposition_identity_counterexample :
    processRequest 0 ⟨0, 1001, some 0⟩ =
      some ⟨0, 1001 / 1000, 1001 / 2000, 0⟩
    ∧ ((1001 : ℚ) / 2000) ≠ ((Int.tdiv (1001 - 0 - 0) 2 : ℤ) : ℚ) / 1000 := by
  constructor
  · show some _ = some _
    norm_num [processRequest]
  · norm_num [Int.tdiv]

/-- Claim C2 (amended): in loadgen (RunExperiment) the decomposition is int64
nanosecond arithmetic: roundTrip = network + workerProcessing exactly and
dataPlaneLatencyNs = networkLatencyNs / 2 truncating toward zero (equal to
floor division when networkTime is nonnegative).  In loadgen-dataplane
(RunDataPlaneTest) the same decomposition is carried out in float64
microseconds: rttUs = (recv - send)/1000, the additive identity
2 * oneWay + workerProcessing = rtt holds exactly, and the halving is exact
rather than truncating. -/
theorem decomposition_identity :
    (∀ wE cE f it sendNs recvNs w : ℤ,
        (mkBatchResult wE cE f it sendNs recvNs w).clientRecvNs
            - (mkBatchResult wE cE f it sendNs recvNs w).clientSendNs
          = (mkBatchResult wE cE f it sendNs recvNs w).networkLatencyNs
            + (mkBatchResult wE cE f it sendNs recvNs w).workerProcessingNs
        ∧ (mkBatchResult wE cE f it sendNs recvNs w).dataPlaneLatencyNs
            = (mkBatchResult wE cE f it sendNs recvNs w).networkLatencyNs.tdiv 2
        ∧ (0 ≤ (mkBatchResult wE cE f it sendNs recvNs w).networkLatencyNs →
            (mkBatchResult wE cE f it sendNs recvNs w).dataPlaneLatencyNs
              = (mkBatchResult wE cE f it sendNs recvNs w).networkLatencyNs / 2))
    ∧ (∀ (seq : ℕ) (sendNs recvNs w : ℤ) (r : requestResult),
        processRequest seq ⟨sendNs, recvNs, some w⟩ = some r →
        r.rttUs = ((recvNs - sendNs : ℤ) : ℚ) / 1000
        ∧ r.workerProcessingUs = (w : ℚ) / 1000
        ∧ r.dataPlaneLatencyUs = (r.rttUs - r.workerProcessingUs) / 2
        ∧ 2 * r.dataPlaneLatencyUs + r.workerProcessingUs = r.rttUs) := by
  constructor
  · intro wE cE f it sendNs recvNs w
    refine ⟨by simp [mkBatchResult], by simp [mkBatchResult], ?_⟩
    intro h
    simp only [mkBatchResult] at h ⊢
    exact Int.tdiv_eq_ediv h (by norm_num)
  · intro seq sendNs recvNs w r h
    simp only [processRequest, Option.some.injEq] at h
    subst h
    refine ⟨rfl, rfl, rfl, ?_⟩
    simp only
    ring

/-- Witness for C2: the amended facts at send 0, recv 1000, worker 200 (ns)
for the integer path, and at send 0, recv 2000000, worker 1000000 for the
microsecond path. -/
theorem decomposition_identity_witness :
    ((mkBatchResult 0 0 0 0 0 1000 200).clientRecvNs
        - (mkBatchResult 0 0 0 0 0 1000 200).clientSendNs
      = (mkBatchResult 0 0 0 0 0 1000 200).networkLatencyNs
        + (mkBatchResult 0 0 0 0 0 1000 200).workerProcessingNs)
    ∧ (mkBatchResult 0 0 0 0 0 1000 200).dataPlaneLatencyNs
        = (mkBatchResult 0 0 0 0 0 1000 200).networkLatencyNs / 2
    ∧ 2 * (⟨0, 2000, 500, 1000⟩ : requestResult).dataPlaneLatencyUs
        + (⟨0, 2000, 500, 1000⟩ : requestResult).workerProcessingUs
      = (⟨0, 2000, 500, 1000⟩ : requestResult).rttUs :=
  ⟨(decomposition_identity.1 0 0 0 0 0 1000 200).1,
   (decomposition_identity.1 0 0 0 0 0 1000 200).2.2 (by decide),
   (decomposition_identity.2 0 0 2000000 1000000 ⟨0, 2000, 500, 1000⟩
      (by norm_num [processRequest])).2.2.2⟩

theorem processRequest_seq (i : ℕ) (e : RequestEnv) :
    (processRequest i e).map requestResult.sequenceNum =
      if e.workerProcessingNs.isSome then some i else none := by
  cases h : e.workerProcessingNs <;> simp [processRequest, h]

theorem filterMap_processRequest (env : ℕ → RequestEnv) (l : List ℕ) :
    l.filterMap (fun i => (processRequest i (env i)).map requestResult.sequenceNum)
      = l.filter (fun i => (env i).workerProcessingNs.isSome) := by
  induction l with
  | nil => rfl
  | cons x xs ih =>
    simp only [List.filterMap_cons, List.filter_cons, processRequest_seq] at ih ⊢
    cases hp : (env x).workerProcessingNs.isSome <;> simp [hp, ih]

/-- Claim C3 counterexample: with NumRequests = 2 and the request with
sequence 1 failing, the dataplane run records an outcome only for sequence 0;
failures are logged but produce no outcome record, so the union of sequence
values present in the outcome set is {0}, not {0, 1}. -/
theorem sequence_density_counterexample :
    (runRequests 2 (fun i => ⟨0, 1000, if i = 0 then some 0 else none⟩)).map
        requestResult.sequenceNum = [0]
    ∧ (runRequests 2 (fun i => ⟨0, 1000, if i = 0 then some 0 else none⟩)).map
        requestResult.sequenceNum ≠ List.range 2 := by
  constructor
  · decide
  · decide

/-- Claim C3 (amended): sequence numbers are assigned monotonically at
schedule time as the loop indices 0..N-1, each is attempted exactly once,
and the set of sequence values present in the recorded outcome set equals
exactly the set of indices below N whose request succeeded — with no
duplicates, and equal to the full set {0, ..., N-1} when every request
succeeds.  Failed requests are only logged; they leave no outcome record, so
a missing sequence number is exactly a failed request. -/
theorem sequence_density (numRequests : ℕ) (env : ℕ → RequestEnv) :
    (runRequests numRequests env).map requestResult.sequenceNum =
      (List.range numRequests).filter (fun i => (env i).workerProcessingNs.isSome)
    ∧ ((runRequests numRequests env).map requestResult.sequenceNum).Nodup
    ∧ (∀ i, i ∈ (runRequests numRequests env).map requestResult.sequenceNum ↔
        i < numRequests ∧ (env i).workerProcessingNs.isSome = true)
    ∧ ((∀ i, i < numRequests → (env i).workerProcessingNs.isSome = true) →
        (runRequests numRequests env).map requestResult.sequenceNum =
          List.range numRequests) := by
  have hmain : (runRequests numRequests env).map requestResult.sequenceNum =
      (List.range numRequests).filter (fun i => (env i).workerProcessingNs.isSome) := by
    unfold runRequests
    rw [List.map_filterMap]
    exact filterMap_processRequest env (List.range numRequests)
  refine ⟨hmain, ?_, ?_, ?_⟩
  · rw [hmain]
    exact (List.nodup_range numRequests).filter _
  · intro i
    rw [hmain, List.mem_filter, List.mem_range]
  · intro hall
    rw [hmain]
    apply List.filter_eq_self.mpr
    intro i hi
    exact hall i (List.mem_range.mp hi)

/-- Witness for C3 (amended): the run with N = 2 in which both requests
succeed records exactly the sequence values [0, 1]. -/
theorem sequence_density_witness :
    (runRequests 2 (fun _ => ⟨0, 1000, some 0⟩)).map requestResult.sequenceNum =
      List.range 2 :=
  (sequence_density 2 (fun _ => ⟨0, 1000, some 0⟩)).2.2.2 (fun i _ => by decide)

theorem foldl_add_eq_sum (l : List ℚ) (c : ℚ) : l.foldl (· + ·) c = c + l.sum := by
  induction l generalizing c with
  | nil => simp
  | cons x xs ih => rw [List.foldl_cons, ih, List.sum_cons]; ring

theorem foldl_add_eq_sum_int (l : List ℤ) (c : ℤ) : l.foldl (· + ·) c = c + l.sum := by
  induction l generalizing c with
  | nil => simp
  | cons x xs ih => rw [List.foldl_cons, ih, List.sum_cons]; ring

theorem foldl_sqdiff_eq_sum (l : List ℚ) (m c : ℚ) :
    l.foldl (fun acc v => acc + (v - m) * (v - m)) c
      = c + (l.map (fun v => (v - m) ^ 2)).sum := by
  induction l generalizing c with
  | nil => simp
  | cons x xs ih => rw [List.foldl_cons, ih, List.map_cons, List.sum_cons]; ring

theorem sum_map_intCast (l : List ℤ) :
    ((l.sum : ℤ) : ℚ) = (l.map (fun (v : ℤ) => (v : ℚ))).sum := by
  induction l with
  | nil => simp
  | cons x xs ih => simp [ih]

theorem foldl_sqdiff_cast_eq_sum (l : List ℤ) (m c : ℚ) :
    l.foldl (fun (acc : ℚ) (v : ℤ) => acc + ((v : ℚ) - m) * ((v : ℚ) - m)) c
      = c + ((l.map (fun (v : ℤ) => (v : ℚ))).map (fun v => (v - m) ^ 2)).sum := by
  induction l generalizing c with
  | nil => simp
  | cons x xs ih => rw [List.foldl_cons, ih, List.map_cons, List.map_cons, List.sum_cons]; ring

/-- Claim C6: the reported standard deviation ("jitter") of the one-way
latency estimate over the run's successful outcomes is the population
standard deviation: the square root of the sum of squared deviations from
the mean divided by N (not N-1).  This holds for the final-run StdDev of
calculateStatistics (loadgen-dataplane) and for the batch jitter of
RunExperiment (loadgen), whose radicand over the int64 nanosecond values is
likewise the population variance whenever the batch has more than one
element. -/
theorem jitter_population_stddev :
    (∀ rs : List requestResult, rs ≠ [] →
        (calculateStatistics rs).map Stats.StdDevSq =
          some (popVarianceSpec (dataPlaneSeries rs)))
    ∧ (∀ (rs : List requestResult) (st : Stats), calculateStatistics rs = some st →
        Real.sqrt (st.StdDevSq : ℝ) =
          Real.sqrt ((popVarianceSpec (dataPlaneSeries rs) : ℝ)))
    ∧ (∀ vals : List ℤ, 1 < vals.length →
        batchJitterSqNs vals = popVarianceSpec (vals.map (fun (v : ℤ) => (v : ℚ)))) := by
  have main : ∀ rs : List requestResult, rs ≠ [] →
      (calculateStatistics rs).map Stats.StdDevSq =
        some (popVarianceSpec (dataPlaneSeries rs)) := by
    intro rs hne
    have hn : ¬ rs.length = 0 := fun h => hne (List.length_eq_zero.mp h)
    simp only [calculateStatistics, if_neg hn, Option.map_some']
    rw [foldl_sqdiff_eq_sum, foldl_add_eq_sum]
    simp [popVarianceSpec, dataPlaneSeries]
  refine ⟨main, ?_, ?_⟩
  · intro rs st h
    have hne : rs ≠ [] := by
      intro he
      subst he
      simp [calculateStatistics] at h
    have hmap := main rs hne
    rw [h, Option.map_some', Option.some.injEq] at hmap
    rw [hmap]
  · intro vals hlen
    unfold batchJitterSqNs
    simp only [if_pos hlen]
    rw [foldl_add_eq_sum_int, foldl_sqdiff_cast_eq_sum]
    simp only [zero_add, sum_map_intCast]
    simp [popVarianceSpec]

/-- Witness for C6: the population-variance identity at the concrete
two-outcome run with one-way estimates 1 µs and 3 µs. -/
theorem jitter_population_stddev_witness :
    ([(⟨0, 0, 1, 0⟩ : requestResult), ⟨1, 0, 3, 0⟩] ≠ ([] : List requestResult))
    ∧ (calculateStatistics [⟨0, 0, 1, 0⟩, ⟨1, 0, 3, 0⟩]).map Stats.StdDevSq =
        some (popVarianceSpec (dataPlaneSeries [⟨0, 0, 1, 0⟩, ⟨1, 0, 3, 0⟩])) :=
  ⟨by decide, jitter_population_stddev.1 [⟨0, 0, 1, 0⟩, ⟨1, 0, 3, 0⟩] (by decide)⟩

theorem foldl_ticks (k : ℕ) (s : DriverState) (h : s.stopEarly = false) :
    (List.replicate k DriverEvent.tick).foldl drStep s = { s with issued := s.issued + k } := by
  induction k generalizing s with
  | zero => simp
  | succ n ih =>
    rw [List.replicate_succ, List.foldl_cons]
    have hstep : drStep s .tick = { s with issued := s.issued + 1 } := by
      simp [drStep, h]
    rw [hstep, ih _ (by simp [h])]
    simp [DriverState.mk.injEq]
    omega

/-- Claim C4 counterexample: the final run summary is not marked
aborted-for-overload — a run whose breaker tripped and a run that completed
cleanly can produce identical summaries, so no summary field distinguishes
them.  (The first two conjuncts exhibit the differing breaker outcomes; the
third shows the summaries coincide.) -/
theorem circuit_breaker_counterexample :
    (runDriver overloadTrace).stopEarly = true
    ∧ (runDriver cleanTrace).stopEarly = false
    ∧ summaryOf (runDriver overloadTrace) = summaryOf (runDriver cleanTrace) := by
  have hA : runDriver overloadTrace = ⟨51, 6, true, true⟩ := by
    rw [runDriver, overloadTrace, List.foldl_append, foldl_ticks 51 ⟨0, 0, false, false⟩ rfl]
    decide
  have hB : runDriver cleanTrace = ⟨51, 6, false, false⟩ := by
    rw [runDriver, cleanTrace, List.foldl_append, List.foldl_append,
      foldl_ticks 50 ⟨0, 0, false, false⟩ rfl]
    decide
  rw [hA, hB]
  exact ⟨rfl, rfl, rfl⟩

/-- Claim C4 (amended): the driver tracks timeouts/total_issued in atomic
counters; a completion that observes total_issued > 50 and a timeout ratio
above 10% sets stopEarly and cancels the run context, after which no further
scheduler iteration issues a request (stop within one tick) and the flag
stays set; however the final summary only reports totals and rate — it
carries no aborted-for-overload marking. -/
theorem circuit_breaker (s : DriverState) :
    (s.stopEarly = true → drStep s .tick = s)
    ∧ (∀ e, s.stopEarly = true → (drStep s e).stopEarly = true)
    ∧ (s.stopEarly = false →
        ((drStep s .completeTimeout).stopEarly = true ↔
          (50 < s.issued ∧ s.issued < 10 * (s.timeouts + 1))))
    ∧ ((s.stopEarly = true → s.cancelled = true) →
        ∀ e, (drStep s e).stopEarly = true → (drStep s e).cancelled = true) := by
  refine ⟨?_, ?_, ?_, ?_⟩
  · intro h
    simp [drStep, h]
  · intro e h
    cases e <;> simp [drStep, h] <;> split <;> simp [h]
  · intro h
    by_cases htrip : 50 < s.issued ∧ s.issued < 10 * (s.timeouts + 1) <;>
      simp [drStep, htrip, h]
  · intro hinv e
    cases e <;> simp only [drStep] <;> (try split) <;> simp_all

/-- Witness for C4 (amended): at state (issued 51, timeouts 5, breaker
unset) a timeout completion trips the breaker, and at a tripped state a tick
leaves the state unchanged. -/
theorem circuit_breaker_witness :
    (drStep ⟨51, 5, false, false⟩ .completeTimeout).stopEarly = true
    ∧ drStep ⟨51, 5, true, true⟩ .tick = ⟨51, 5, true, true⟩ :=
  ⟨((circuit_breaker ⟨51, 5, false, false⟩).2.2.1 rfl).mpr (by decide),
    (circuit_breaker ⟨51, 5, true, true⟩).1 rfl⟩

/-- Claim C5: a run in which zero requests succeed is a non-crashing, fully
reported outcome: the summary still reports the 0.00% success rate, the log
and the header-only CSV are written, and the process exits with code 0; with
the setup steps succeeding the exit code is always 0, a failed connect exits
with code 1 before any request, and failed output-file creation likewise
exits nonzero. -/
theorem zero_success_reporting :
    (∀ (numRequests : ℕ) (rep : RunReport), 0 < numRequests →
        mainSingleTest true true true numRequests [] = some rep →
        rep.exitCode = 0 ∧ rep.successCount = 0 ∧ rep.successRatePct = 0
        ∧ rep.logCreated = true ∧ rep.csvCreated = true ∧ rep.csvHeaderWritten = true
        ∧ rep.csvBodyRows = 0 ∧ rep.noResultsDiagnostic = true)
    ∧ (∀ (numRequests : ℕ) (results : List requestResult) (rep : RunReport),
        mainSingleTest true true true numRequests results = some rep →
        rep.exitCode = 0)
    ∧ (∀ (logOk csvOk : Bool) (numRequests : ℕ) (results : List requestResult),
        (mainSingleTest false logOk csvOk numRequests results).map RunReport.exitCode
          = some 1) := by
  refine ⟨?_, ?_, ?_⟩
  · intro numRequests rep hpos h
    rw [mainSingleTest, runDataPlaneTest] at h
    norm_num at h
    subst h
    norm_num
  · intro numRequests results rep h
    simp only [mainSingleTest, runDataPlaneTest, if_neg (by decide : ¬ (true = false))] at h
    split at h
    · rw [Option.some.injEq] at h
      subst h
      rfl
    · split at h
      · exact absurd h (by simp)
      · rw [Option.some.injEq] at h
        subst h
        rfl
  · intro logOk csvOk numRequests results
    rfl

/-- Witness for C5: the concrete zero-success run with NumRequests = 10 and
all setup steps succeeding exits with code 0, reports rate 0, and emits the
no-results diagnostic. -/
theorem zero_success_reporting_witness :
    (mainSingleTest true true true 10 []).map RunReport.exitCode = some 0
    ∧ (mainSingleTest true true true 10 []).map RunReport.successRatePct = some 0
    ∧ (mainSingleTest true true true 10 []).map RunReport.noResultsDiagnostic = some true := by
  cases hm : mainSingleTest true true true 10 [] with
  | none => exact absurd hm (by simp [mainSingleTest, runDataPlaneTest])
  | some rep =>
    have h := zero_success_reporting.1 10 rep (by norm_num) hm
    simp only [Option.map_some', Option.some.injEq]
    exact ⟨h.1, h.2.2.1, h.2.2.2.2.2.2.2⟩

/-- Claim C10: calculateStatistics indexes elements 0 and n-1 of its input
for Min and Max and therefore requires a non-empty results slice — embedded
as returning none exactly on the empty input; every call site first checks
the length (returning early or skipping the call when it is empty), so the
out-of-bounds access is unreachable on both the RunDataPlaneTest path and
the runTestAndGetResults path; and the percentile helper independently
returns 0 for an empty series. -/
theorem calculateStatistics_nonempty_safety :
    calculateStatistics [] = none
    ∧ (∀ rs : List requestResult, rs ≠ [] → (calculateStatistics rs).isSome = true)
    ∧ (∀ (connectOk logOk csvOk : Bool) (numRequests : ℕ) (results : List requestResult),
        (mainSingleTest connectOk logOk csvOk numRequests results).isSome = true)
    ∧ (∀ results : List requestResult, (runTestStatsLog results).isSome = true)
    ∧ (∀ p : ℕ, percentile [] p = 0) := by
  have hsome : ∀ rs : List requestResult, rs ≠ [] → (calculateStatistics rs).isSome = true := by
    intro rs hne
    have hn : ¬ rs.length = 0 := fun h => hne (List.length_eq_zero.mp h)
    simp [calculateStatistics, hn]
  refine ⟨rfl, hsome, ?_, ?_, fun p => rfl⟩
  · intro connectOk logOk csvOk numRequests results
    cases connectOk <;> cases logOk <;> cases csvOk <;>
      simp only [mainSingleTest, runDataPlaneTest] <;> norm_num
    rcases eq_or_ne results [] with rfl | hne
    · simp
    · obtain ⟨st, hst⟩ := Option.isSome_iff_exists.mp (hsome results hne)
      simp [hne, hst]
  · intro results
    rcases Nat.eq_zero_or_pos results.length with h0 | hpos
    · simp [runTestStatsLog, h0]
    · have hne : results ≠ [] := by
        intro he
        rw [he] at hpos
        exact absurd hpos (by decide)
      obtain ⟨st, hst⟩ := Option.isSome_iff_exists.mp (hsome results hne)
      simp [runTestStatsLog, hpos, hst]

/-- Witness for C10: calculateStatistics is defined (isSome) at the concrete
one-element run, via the non-emptiness guard. -/
theorem calculateStatistics_nonempty_safety_witness :
    (calculateStatistics [⟨0, 0, 1, 0⟩]).isSome = true :=
  calculateStatistics_nonempty_safety.2.1 [⟨0, 0, 1, 0⟩] (by decide)

theorem runBatches_partition_aux (events : List BatchEvent) :
    ∀ s : BatchState,
      (events.foldl batchStep s).logged.flatten ++ (events.foldl batchStep s).batch
        = s.logged.flatten ++ (s.batch ++ addsOf events) := by
  induction events with
  | nil => intro s; simp [addsOf]
  | cons e es ih =>
    intro s
    rw [List.foldl_cons]
    cases e with
    | add r =>
      have hstep : batchStep s (.add r) = ⟨s.batch ++ [r], s.logged⟩ := rfl
      rw [hstep, ih ⟨s.batch ++ [r], s.logged⟩]
      simp [addsOf, List.filterMap_cons]
    | tick =>
      by_cases hb : s.batch.isEmpty
      · have hnil : s.batch = [] := List.isEmpty_iff.mp hb
        have hstep : batchStep s .tick = s := by simp [batchStep, hb]
        rw [hstep, ih s]
        simp [addsOf, List.filterMap_cons, hnil]
      · have hstep : batchStep s .tick = ⟨[], s.logged ++ [s.batch]⟩ := by
          simp [batchStep, hb]
        rw [hstep, ih ⟨[], s.logged ++ [s.batch]⟩]
        simp [addsOf, List.filterMap_cons]

/-- Claim C7 counterexample: the final whole-run latency summary is NOT
computed from the complete outcome set — the 20-second drains clear the
accumulator, so the "Final Batch Avg" block covers only the outcomes that
arrived after the last drain.  Concretely, with one outcome before a ticker
fire and one after, the final batch holds only the second outcome. -/
theorem rolling_snapshot_counterexample :
    (runBatches [.add (mkBatchResult 1 0 0 0 0 0 0), .tick,
        .add (mkBatchResult 2 0 0 0 0 0 0)]).batch
      = [mkBatchResult 2 0 0 0 0 0 0]
    ∧ (runBatches [.add (mkBatchResult 1 0 0 0 0 0 0), .tick,
        .add (mkBatchResult 2 0 0 0 0 0 0)]).batch
      ≠ addsOf [.add (mkBatchResult 1 0 0 0 0 0 0), .tick,
        .add (mkBatchResult 2 0 0 0 0 0 0)] := by
  refine ⟨by decide, by decide⟩

/-- Claim C7 (amended): every ticker fire while the run is active drains the
current in-memory batch, computes the statistic set over just that batch,
logs it, and clears the batch (an empty batch logs nothing); the drained
snapshots together with the final batch partition the complete outcome set,
and the final "Final Batch Avg" summary covers exactly the outcomes
appended since the last drain — not the whole run. -/
theorem rolling_snapshot (events : List BatchEvent) :
    (∀ s : BatchState, s.batch ≠ [] →
        batchStep s .tick = ⟨[], s.logged ++ [s.batch]⟩)
    ∧ (∀ s : BatchState, s.batch = [] → batchStep s .tick = s)
    ∧ (runBatches events).logged.flatten ++ (runBatches events).batch = addsOf events := by
  refine ⟨?_, ?_, ?_⟩
  · intro s hne
    have hb : ¬ s.batch.isEmpty := by
      simpa [List.isEmpty_iff] using hne
    simp [batchStep, hb]
  · intro s hnil
    simp [batchStep, hnil]
  · rw [runBatches, runBatches_partition_aux events ⟨[], []⟩]
    simp

/-- Witness for C7 (amended): a ticker fire on the concrete one-element
batch logs exactly that batch and clears it, and the partition identity at a
concrete two-outcome, one-drain run. -/
theorem rolling_snapshot_witness :
    batchStep ⟨[mkBatchResult 1 0 0 0 0 0 0], []⟩ .tick
      = ⟨[], [[mkBatchResult 1 0 0 0 0 0 0]]⟩
    ∧ (runBatches [.add (mkBatchResult 1 0 0 0 0 0 0), .tick,
          .add (mkBatchResult 2 0 0 0 0 0 0)]).logged.flatten
        ++ (runBatches [.add (mkBatchResult 1 0 0 0 0 0 0), .tick,
          .add (mkBatchResult 2 0 0 0 0 0 0)]).batch
      = addsOf [.add (mkBatchResult 1 0 0 0 0 0 0), .tick,
          .add (mkBatchResult 2 0 0 0 0 0 0)] :=
  ⟨(rolling_snapshot []).1 ⟨[mkBatchResult 1 0 0 0 0 0 0], []⟩ (by decide),
    (rolling_snapshot [.add (mkBatchResult 1 0 0 0 0 0 0), .tick,
      .add (mkBatchResult 2 0 0 0 0 0 0)]).2.2⟩

theorem reach_busy : ∀ k, k ≤ WorkerPoolSize → PoolReachable ⟨0, k⟩ := by
  intro k
  induction k with
  | zero => intro _; exact Relation.ReflTransGen.refl
  | succ n ih =>
    intro hk
    have h1 : PoolReachable ⟨0, n⟩ := ih (Nat.le_of_succ_le hk)
    have h2 : PoolStep ⟨0, n⟩ ⟨1, n⟩ :=
      PoolStep.send ⟨0, n⟩ (by norm_num [WorkerPoolSize])
    have h3 : PoolStep ⟨1, n⟩ ⟨0, n + 1⟩ :=
      PoolStep.take ⟨1, n⟩ (by norm_num) (Nat.lt_of_succ_le hk)
    exact (h1.tail h2).tail h3

/-- Claim C8 counterexample: the hand-off does not block as soon as all pool
slots are busy — requestChan is buffered with capacity 2 * WorkerPoolSize,
so the reachable state with all WorkerPoolSize workers busy and an empty
buffer still lets the scheduler's send proceed. -/
theorem bounded_pool_counterexample :
    PoolReachable ⟨0, WorkerPoolSize⟩ ∧ ¬ sendBlocked ⟨0, WorkerPoolSize⟩ :=
  ⟨reach_busy WorkerPoolSize le_rfl, by norm_num [sendBlocked, WorkerPoolSize]⟩

/-- Claim C8 (amended): on each scheduler tick the driver hands the next
sequence number to the fixed pool of WorkerPoolSize workers through a
buffered channel of capacity 2 * WorkerPoolSize; in every reachable state
the number of in-flight RPCs never exceeds WorkerPoolSize and the number of
queued hand-offs never exceeds the buffer capacity, and the hand-off blocks
exactly when the buffer is full (not merely when all pool slots are busy);
the resulting send-time lag is not corrected anywhere. -/
theorem bounded_pool (s : PoolState) (h : PoolReachable s) :
    s.busy ≤ WorkerPoolSize ∧ s.queued ≤ 2 * WorkerPoolSize
    ∧ (sendBlocked s ↔ s.queued = 2 * WorkerPoolSize) := by
  have hmain : s.busy ≤ WorkerPoolSize ∧ s.queued ≤ 2 * WorkerPoolSize := by
    induction h with
    | refl => exact ⟨Nat.zero_le _, Nat.zero_le _⟩
    | tail hsteps hstep ih =>
      cases hstep with
      | send hq => exact ⟨ih.1, hq⟩
      | take hq hb => exact ⟨hb, le_trans (Nat.sub_le _ _) ih.2⟩
      | finish hb => exact ⟨le_trans (Nat.sub_le _ _) ih.1, ih.2⟩
  refine ⟨hmain.1, hmain.2, ?_⟩
  have h2 := hmain.2
  unfold sendBlocked
  omega

/-- Witness for C8 (amended): the bounds and the blocking criterion at the
initial state, which is reachable by the empty step sequence. -/
theorem bounded_pool_witness :
    (⟨0, 0⟩ : PoolState).busy ≤ WorkerPoolSize
    ∧ (⟨0, 0⟩ : PoolState).queued ≤ 2 * WorkerPoolSize
    ∧ (sendBlocked ⟨0, 0⟩ ↔ (⟨0, 0⟩ : PoolState).queued = 2 * WorkerPoolSize) :=
  bounded_pool ⟨0, 0⟩ Relation.ReflTransGen.refl

/-- Claim C9 counterexample: a provisioning failure does not record an
"N/A" row — the step is skipped entirely.  With scales 100 (provisioning
fails) and 1000 (run yields no results), the summary CSV contains a single
row, for scale 1000; no row for scale 100 exists. -/
theorem orchestrator_na_rows_counterexample :
    (runFullExperiment 10 [(100, .provisionFail), (1000, .ran [])]).1
      = [.naRow 1000]
    ∧ ¬ (100 ∈ ((runFullExperiment 10 [(100, .provisionFail),
          (1000, .ran [])]).1.map rowScale)) := by
  refine ⟨rfl, by decide⟩

/-- Claim C9 (amended): during a sweep, a step whose run produced no results
records the explicit "N/A" sentinel row for that scale; a step whose
provisioning failed is skipped without recording any row; in both cases the
orchestrator continues with the remaining scales (the rows are exactly the
per-step rows in order), and the final full teardown runs on the exit path
after the loop even when steps failed. -/
theorem orchestrator_na_rows (numRequests : ℕ) (steps : List (ℕ × StepInput)) :
    (runFullExperiment numRequests steps).2 = true
    ∧ (runFullExperiment numRequests steps).1
        = steps.filterMap (fun si => rowFor numRequests si.1 si.2)
    ∧ (∀ scale, (scale, .ran []) ∈ steps →
        SummaryRow.naRow scale ∈ (runFullExperiment numRequests steps).1) := by
  have hrows : ∀ l : List (ℕ × StepInput),
      runSweep numRequests l = l.filterMap (fun si => rowFor numRequests si.1 si.2) := by
    intro l
    induction l with
    | nil => rfl
    | cons hd tl ih =>
      obtain ⟨scale, inp⟩ := hd
      rw [runSweep, List.filterMap_cons]
      cases h : rowFor numRequests scale inp <;> simp [h, ih]
  refine ⟨rfl, hrows steps, ?_⟩
  intro scale hmem
  show SummaryRow.naRow scale ∈ runSweep numRequests steps
  rw [hrows steps]
  exact List.mem_filterMap.mpr ⟨(scale, .ran []), hmem, by simp [rowFor]⟩

/-- Witness for C9 (amended): at the concrete one-step sweep whose run
produced no results, the sentinel row is present and the teardown ran. -/
theorem orchestrator_na_rows_witness :
    SummaryRow.naRow 5 ∈ (runFullExperiment 10 [(5, .ran [])]).1
    ∧ (runFullExperiment 10 [(5, .ran [])]).2 = true :=
  ⟨(orchestrator_na_rows 10 [(5, .ran [])]).2.2 5 (by simp),
    (orchestrator_na_rows 10 [(5, .ran [])]).1⟩
